import Mathlib

/-!
Shallow embedding of `ai_visualization.py` (AI Data Visualization Agent).

The embedding covers:
* the code extractor (`pattern` / `match_code_blocks`), modelled over `List Char`
  with the exact marker strings of the compiled regex and its leftmost / lazy
  search semantics;
* the execution sandbox (`run_local_code`), modelled over an abstract
  instruction language with explicit globals / locals namespaces, stdout
  capture and exception signalling;
* the post-execution rendering section of `main` (static figures, interactive
  charts, tabular results) with its exact exception-handling placement.
-/

/-- Opening marker of the compiled regex `r"```python\n(.*?)\n```"`. -/
def openMarker : List Char := "```python\n".toList

/-- Closing marker of the compiled regex. -/
def closeMarker : List Char := "\n```".toList

/-- Lazy part of the regex: the capture group `(.*?)` stops at the earliest
occurrence of the closing marker; returns the text before that occurrence,
or `none` when the closing marker does not occur. -/
def findClose : List Char → Option (List Char)
  | [] => none
  | c :: rest =>
    if closeMarker.isPrefixOf (c :: rest) then some []
    else (findClose rest).map (fun b => c :: b)

/-- `match_code_blocks`: `re.search` scans start positions left to right; a
position matches when the opening marker is literally present and a closing
marker occurs somewhere after it (DOTALL), the lazy group capturing up to the
earliest closing marker.  `group(1)` of the first match is returned, and the
empty string when there is no match. -/
def matchCodeBlocks : List Char → List Char
  | [] => []
  | c :: rest =>
    if openMarker.isPrefixOf (c :: rest) then
      (findClose ((c :: rest).drop openMarker.length)).getD (matchCodeBlocks rest)
    else matchCodeBlocks rest

theorem findClose_cons (c : Char) (rest : List Char) :
    findClose (c :: rest) =
      if closeMarker.isPrefixOf (c :: rest) then some []
      else (findClose rest).map (fun b => c :: b) := rfl

theorem matchCodeBlocks_cons (c : Char) (rest : List Char) :
    matchCodeBlocks (c :: rest) =
      if openMarker.isPrefixOf (c :: rest) then
        (findClose ((c :: rest).drop openMarker.length)).getD (matchCodeBlocks rest)
      else matchCodeBlocks rest := rfl

example : matchCodeBlocks "intro ```python\nx = 1\n``` outro".toList = "x = 1".toList := by decide

example : matchCodeBlocks "no code at all".toList = [] := by decide

example : matchCodeBlocks "```python\na\n```b```python\nc\n```".toList = "a".toList := by decide

theorem isPrefixOf_append_self (l t : List Char) : l.isPrefixOf (l ++ t) = true := by
  simp

theorem isPrefixOf_append_of_isPrefixOf (p v u : List Char) (h : p.isPrefixOf v = true) :
    p.isPrefixOf (v ++ u) = true := by
  simp at h ⊢
  exact h.trans (List.prefix_append v u)

/-- Skipping a region free of the opening marker does not change the search result. -/
theorem matchCodeBlocks_append_skip (p t : List Char)
    (h : ∀ i, i < p.length → openMarker.isPrefixOf ((p ++ t).drop i) = false) :
    matchCodeBlocks (p ++ t) = matchCodeBlocks t := by
  induction p with
  | nil => rfl
  | cons c cs ih =>
    have h0 : openMarker.isPrefixOf (c :: (cs ++ t)) = false := by
      simpa using h 0 (by simp)
    show matchCodeBlocks (c :: (cs ++ t)) = matchCodeBlocks t
    rw [matchCodeBlocks_cons, h0]
    simp only [Bool.false_eq_true, if_false]
    exact ih (fun i hi => by simpa [List.drop_succ_cons] using h (i + 1) (by simpa using hi))

/-- When the scanned text splits as `body ++ closeMarker ++ t` and no closing
marker occurs inside the `body` region, the lazy search captures exactly `body`. -/
theorem findClose_of_split (b t : List Char)
    (hb : ∀ k, k < b.length → closeMarker.isPrefixOf ((b ++ (closeMarker ++ t)).drop k) = false) :
    findClose (b ++ (closeMarker ++ t)) = some b := by
  induction b with
  | nil =>
    rw [show ([] : List Char) ++ (closeMarker ++ t) = '\n' :: ("\x60\x60\x60".toList ++ t) from rfl]
    rw [findClose_cons]
    rw [show closeMarker.isPrefixOf ('\n' :: ("\x60\x60\x60".toList ++ t)) = true from
      isPrefixOf_append_self closeMarker t]
    simp
  | cons c cs ih =>
    have h0 : closeMarker.isPrefixOf (c :: (cs ++ (closeMarker ++ t))) = false := by
      simpa using hb 0 (by simp)
    show findClose (c :: (cs ++ (closeMarker ++ t))) = some (c :: cs)
    rw [findClose_cons, h0]
    simp only [Bool.false_eq_true, if_false]
    rw [ih (fun k hk => by simpa [List.drop_succ_cons] using hb (k + 1) (by simpa using hk))]
    rfl

/-- A text beginning with the opening marker, whose body region is free of
closing markers, extracts to exactly the body. -/
theorem matchCodeBlocks_at_block (b t : List Char)
    (hb : ∀ k, k < b.length → closeMarker.isPrefixOf ((b ++ (closeMarker ++ t)).drop k) = false) :
    matchCodeBlocks (openMarker ++ (b ++ (closeMarker ++ t))) = b := by
  have hcons : openMarker ++ (b ++ (closeMarker ++ t)) =
      '\x60' :: ("\x60\x60python\n".toList ++ (b ++ (closeMarker ++ t))) := rfl
  rw [hcons, matchCodeBlocks_cons, ← hcons]
  rw [isPrefixOf_append_self openMarker (b ++ (closeMarker ++ t))]
  simp only [if_true]
  rw [List.drop_left]
  rw [findClose_of_split b t hb]
  rfl

/-- C2: a response text containing exactly one well-formed fenced code block —
no opening marker anywhere in the region before the block and no closing
marker inside the body — extracts to exactly the block's interior text, with
the marker lines excluded, however many line breaks the body contains. -/
theorem extractor_single_block (pre body post : List Char)
    (hpre : ∀ i, i < pre.length →
      openMarker.isPrefixOf ((pre ++ (openMarker ++ (body ++ (closeMarker ++ post)))).drop i) = false)
    (hbody : ∀ k, k < body.length →
      closeMarker.isPrefixOf ((body ++ (closeMarker ++ post)).drop k) = false) :
    matchCodeBlocks (pre ++ (openMarker ++ (body ++ (closeMarker ++ post)))) = body := by
  rw [matchCodeBlocks_append_skip _ _ hpre]
  exact matchCodeBlocks_at_block body post hbody

theorem extractor_single_block_witness :
    matchCodeBlocks ("Sure, here is the code:\n".toList ++
        (openMarker ++ ("x = df.mean()\nprint(x)".toList ++ (closeMarker ++ "\nHope this helps.".toList)))) =
      "x = df.mean()\nprint(x)".toList :=
  extractor_single_block _ _ _ (by decide) (by decide)

/-- C4: a response text containing two (or more) fenced blocks extracts to the
interior of the first block only; the later blocks are ignored. -/
theorem extractor_first_of_many (pre body mid body2 post : List Char)
    (hpre : ∀ i, i < pre.length →
      openMarker.isPrefixOf ((pre ++ (openMarker ++ (body ++ (closeMarker ++
        (mid ++ (openMarker ++ (body2 ++ (closeMarker ++ post)))))))).drop i) = false)
    (hbody : ∀ k, k < body.length →
      closeMarker.isPrefixOf ((body ++ (closeMarker ++
        (mid ++ (openMarker ++ (body2 ++ (closeMarker ++ post)))))).drop k) = false) :
    matchCodeBlocks (pre ++ (openMarker ++ (body ++ (closeMarker ++
        (mid ++ (openMarker ++ (body2 ++ (closeMarker ++ post)))))))) = body := by
  rw [matchCodeBlocks_append_skip _ _ hpre]
  exact matchCodeBlocks_at_block body _ hbody

theorem extractor_first_of_many_witness :
    matchCodeBlocks ("First:\n".toList ++
        (openMarker ++ ("print(1)".toList ++ (closeMarker ++
          ("\nand second:\n".toList ++ (openMarker ++ ("print(2)".toList ++ (closeMarker ++ "\nend".toList)))))))) =
      "print(1)".toList :=
  extractor_first_of_many _ _ _ _ _ (by decide) (by decide)

theorem bool_eq_false_of_not (b : Bool) (h : ¬ b = true) : b = false := by
  cases b with
  | false => rfl
  | true => exact absurd rfl h

/-- When the lazy search succeeds, the closing marker really occurs right
after the captured text. -/
theorem findClose_some_close (t b : List Char) (h : findClose t = some b) :
    closeMarker.isPrefixOf (t.drop b.length) = true := by
  induction t generalizing b with
  | nil => simp [findClose] at h
  | cons c rest ih =>
    rw [findClose_cons] at h
    by_cases hc : closeMarker.isPrefixOf (c :: rest) = true
    · rw [hc] at h
      simp only [if_true, Option.some.injEq] at h
      subst h
      simpa using hc
    · have hc2 : closeMarker.isPrefixOf (c :: rest) = false := bool_eq_false_of_not _ hc
      rw [hc2] at h
      simp only [Bool.false_eq_true, if_false, Option.map_eq_some'] at h
      obtain ⟨b2, hb2, rfl⟩ := h
      simpa [List.drop_succ_cons] using ih b2 hb2

/-- When the lazy search succeeds, the captured text is an initial segment of
the scanned text. -/
theorem findClose_split (t b : List Char) (h : findClose t = some b) :
    ∃ u, t = b ++ u := by
  induction t generalizing b with
  | nil => simp [findClose] at h
  | cons c rest ih =>
    rw [findClose_cons] at h
    by_cases hc : closeMarker.isPrefixOf (c :: rest) = true
    · rw [hc] at h
      simp only [if_true, Option.some.injEq] at h
      subst h
      exact ⟨c :: rest, rfl⟩
    · have hc2 : closeMarker.isPrefixOf (c :: rest) = false := bool_eq_false_of_not _ hc
      rw [hc2] at h
      simp only [Bool.false_eq_true, if_false, Option.map_eq_some'] at h
      obtain ⟨b2, hb2, rfl⟩ := h
      obtain ⟨u, hu⟩ := ih b2 hb2
      exact ⟨u, by rw [hu]; rfl⟩

/-- The search over a text with no opening-marker-plus-later-closing-marker
pair fails and yields the empty string. -/
theorem matchCodeBlocks_eq_nil (s : List Char)
    (h : ∀ i j, (openMarker.isPrefixOf (s.drop i) &&
      closeMarker.isPrefixOf (s.drop (i + openMarker.length + j))) = false) :
    matchCodeBlocks s = [] := by
  induction s with
  | nil => rfl
  | cons c rest ih =>
    rw [matchCodeBlocks_cons]
    have hshift : ∀ i j, (openMarker.isPrefixOf (rest.drop i) &&
        closeMarker.isPrefixOf (rest.drop (i + openMarker.length + j))) = false := by
      intro i j
      have := h (i + 1) j
      have harith : i + 1 + openMarker.length + j = (i + openMarker.length + j) + 1 := by omega
      rw [harith] at this
      simpa [List.drop_succ_cons] using this
    by_cases hop : openMarker.isPrefixOf (c :: rest) = true
    · rw [hop]
      simp only [if_true]
      cases hfc : findClose ((c :: rest).drop openMarker.length) with
      | none => simpa [hfc] using ih hshift
      | some b =>
        exfalso
        have hclose := findClose_some_close _ _ hfc
        rw [List.drop_drop] at hclose
        have h0 := h 0 b.length
        have harith : openMarker.length + b.length = 0 + openMarker.length + b.length := by omega
        rw [harith] at hclose
        rw [List.drop_zero] at h0
        rw [hop, hclose] at h0
        simp at h0
    · have hop2 : openMarker.isPrefixOf (c :: rest) = false := bool_eq_false_of_not _ hop
      rw [hop2]
      simpa using ih hshift

/-- C3: a response text containing zero fenced code blocks — no position where
the opening marker occurs with a closing marker somewhere after it — makes the
Code Extractor return the empty string, as an ordinary return value. -/
theorem extractor_no_block (s : List Char)
    (h : ∀ i, i < s.length → ∀ j, j < s.length →
      (openMarker.isPrefixOf (s.drop i) &&
        closeMarker.isPrefixOf (s.drop (i + openMarker.length + j))) = false) :
    matchCodeBlocks s = [] := by
  apply matchCodeBlocks_eq_nil
  intro i j
  by_cases hi : i < s.length
  · by_cases hj : j < s.length
    · exact h i hi j hj
    · have hdrop : s.drop (i + openMarker.length + j) = [] :=
        List.drop_eq_nil_of_le (by omega)
      rw [hdrop]
      simp [closeMarker]
  · have hdrop : s.drop i = [] := List.drop_eq_nil_of_le (by omega)
    rw [hdrop]
    simp [openMarker]

theorem extractor_no_block_witness :
    matchCodeBlocks "I am unable to produce runnable code for that request.".toList = [] :=
  extractor_no_block _ (by decide)

/-- The lazy capture stops at the earliest closing marker, so the captured
text itself contains no closing marker at any position. -/
theorem findClose_no_close_in_body (t b : List Char) (h : findClose t = some b) :
    ∀ j, closeMarker.isPrefixOf (b.drop j) = false := by
  induction t generalizing b with
  | nil => simp [findClose] at h
  | cons c rest ih =>
    rw [findClose_cons] at h
    by_cases hc : closeMarker.isPrefixOf (c :: rest) = true
    · rw [hc] at h
      simp only [if_true, Option.some.injEq] at h
      subst h
      intro j
      simp [closeMarker]
    · have hc2 : closeMarker.isPrefixOf (c :: rest) = false := bool_eq_false_of_not _ hc
      rw [hc2] at h
      simp only [Bool.false_eq_true, if_false, Option.map_eq_some'] at h
      obtain ⟨b2, hb2, rfl⟩ := h
      intro j
      cases j with
      | zero =>
        rw [List.drop_zero]
        by_cases hcon : closeMarker.isPrefixOf (c :: b2) = true
        · exfalso
          obtain ⟨u, hu⟩ := findClose_split rest b2 hb2
          have : closeMarker.isPrefixOf (c :: rest) = true := by
            rw [hu]
            exact isPrefixOf_append_of_isPrefixOf _ _ u hcon
          rw [this] at hc2
          cases hc2
        · exact bool_eq_false_of_not _ hcon
      | succ j2 =>
        simpa [List.drop_succ_cons] using ih b2 hb2 j2

/-- C10: whatever the response text, the string returned by the Code Extractor
never contains the closing fence marker preceded by a line break (the
four-character sequence newline-backtick-backtick-backtick): the lazy match
stops at the earliest closing marker. -/
theorem extractor_output_no_close_marker (s : List Char) (j : Nat) :
    closeMarker.isPrefixOf ((matchCodeBlocks s).drop j) = false := by
  induction s with
  | nil => simp [matchCodeBlocks, closeMarker]
  | cons c rest ih =>
    rw [matchCodeBlocks_cons]
    by_cases hop : openMarker.isPrefixOf (c :: rest) = true
    · rw [hop]
      simp only [if_true]
      cases hfc : findClose ((c :: rest).drop openMarker.length) with
      | none => simpa using ih
      | some b =>
        simp only [Option.getD_some]
        exact findClose_no_close_in_body _ _ hfc j
    · have hop2 : openMarker.isPrefixOf (c :: rest) = false := bool_eq_false_of_not _ hop
      rw [hop2]
      simpa using ih

/-! Execution sandbox (`run_local_code`). Generated code is modelled as a list
of abstract statements; `exec(code, {}, local_vars)` runs them against a fresh
empty globals dict and the supplied locals dict, with stdout and stderr both
redirected into one capture buffer. -/

/-- Runtime values the generated code can manipulate: pandas tables and
series, plotly figures, library module handles, built-in functions and plain
scalars.  The `renderRaises` flag records whether handing this concrete value
to its matching display call would raise at render time. -/
inductive Value where
  | dataFrame (id : Nat) (renderRaises : Bool)
  | series (id : Nat) (renderRaises : Bool)
  | plotlyFig (id : Nat) (renderRaises : Bool)
  | lib (moduleName : String)
  | builtinFn (fname : String)
  | intV (n : Int)
  | strV (s : String)
deriving DecidableEq

/-- The name → value mapping of a Python dict, in insertion order. -/
abbrev Bindings := List (String × Value)

def lookupVar : Bindings → String → Option Value
  | [], _ => none
  | (y, v) :: rest, x => if y = x then some v else lookupVar rest x

/-- Dict assignment: overwrite in place, else append at the end. -/
def setVar : Bindings → String → Value → Bindings
  | [], x, v => [(x, v)]
  | (y, w) :: rest, x, v =>
    if y = x then (y, v) :: rest else (y, w) :: setVar rest x v

/-- Abstract statements of the generated code. -/
inductive Instr where
  | printLit (s : List Char)
  | printVar (x : String)
  | assign (x : String) (v : Value)
  | copyVar (x y : String)
  | raiseErr (msg : String)
deriving DecidableEq

abbrev Code := List Instr

/-- State of one `exec` call: the globals dict, the locals dict, and the text
captured so far from the redirected stdout/stderr streams. -/
structure ExecState where
  globalsNS : Bindings
  localsNS : Bindings
  out : List Char
deriving DecidableEq

/-- The fixed builtins table: CPython injects `__builtins__` into the empty
globals dict passed to `exec(code, {}, local_vars)`, so the built-in names
stay reachable inside the sandbox.  They are a constant of the language —
shared by every `exec` call — not part of any caller's scope. -/
def builtinsNS : Bindings :=
  [("print", Value.builtinFn "print"), ("len", Value.builtinFn "len"),
   ("range", Value.builtinFn "range"), ("sum", Value.builtinFn "sum"),
   ("min", Value.builtinFn "min"), ("max", Value.builtinFn "max")]

/-- Name resolution inside `exec`: locals first, then globals, then the
builtins injected into the (otherwise empty) globals dict; only after all
three misses does a lookup raise NameError. -/
def readName (st : ExecState) (x : String) : Option Value :=
  match lookupVar st.localsNS x with
  | some v => some v
  | none =>
    match lookupVar st.globalsNS x with
    | some v => some v
    | none => lookupVar builtinsNS x

/-- Printable rendering of a value (model of `str`). -/
def showValue : Value → List Char
  | .dataFrame id _ => ("<DataFrame " ++ toString id ++ ">").toList
  | .series id _ => ("<Series " ++ toString id ++ ">").toList
  | .plotlyFig id _ => ("<Figure " ++ toString id ++ ">").toList
  | .lib m => ("<module " ++ m ++ ">").toList
  | .builtinFn f => ("<built-in function " ++ f ++ ">").toList
  | .intV n => (toString n).toList
  | .strV s => s.toList

/-- One statement: either a new state, or a raised exception carrying the
message and the state (with its partial captured output) at the raise point. -/
def execInstr (st : ExecState) : Instr → Except (String × ExecState) ExecState
  | .printLit s => .ok { st with out := st.out ++ s }
  | .printVar x =>
    match readName st x with
    | some v => .ok { st with out := st.out ++ showValue v ++ ['\n'] }
    | none => .error ("NameError: name " ++ x ++ " is not defined", st)
  | .assign x v => .ok { st with localsNS := setVar st.localsNS x v }
  | .copyVar x y =>
    match readName st y with
    | some v => .ok { st with localsNS := setVar st.localsNS x v }
    | none => .error ("NameError: name " ++ y ++ " is not defined", st)
  | .raiseErr msg => .error (msg, st)

/-- Sequential execution; the first raised exception aborts the rest. -/
def execCode (st : ExecState) : Code → Except (String × ExecState) ExecState
  | [] => .ok st
  | i :: rest =>
    match execInstr st i with
    | .ok st2 => execCode st2 rest
    | .error e => .error e

/-- Everything `run_local_code` gives back to its caller and the UI:
the optional mutated dict (its return value), the captured-output text it
displays, and the error summary it displays on failure. -/
structure RunResult where
  result : Option Bindings
  displayedOutput : List Char
  errorMsg : Option String
deriving DecidableEq

/-- `run_local_code`: run `exec(code, {}, local_vars)` under stdout/stderr
capture; on any raised error display the error summary plus partial output and
return `None`; on success display the output and return the mutated dict. -/
def run_local_code (code : Code) (local_vars : Bindings) : RunResult :=
  match execCode { globalsNS := [], localsNS := local_vars, out := [] } code with
  | .ok st => { result := some st.localsNS, displayedOutput := st.out, errorMsg := none }
  | .error (msg, st) => { result := none, displayedOutput := st.out, errorMsg := some msg }

example :
    run_local_code [Instr.printLit "hi".toList, Instr.raiseErr "boom", Instr.printLit "bye".toList] [] =
      { result := none, displayedOutput := "hi".toList, errorMsg := some "boom" } := by decide

example :
    run_local_code [Instr.assign "out1" (Value.intV 3)] [] =
      { result := some [("out1", Value.intV 3)], displayedOutput := [], errorMsg := none } := by decide

theorem execCode_append (a b : Code) (st : ExecState) :
    execCode st (a ++ b) =
      match execCode st a with
      | .ok st2 => execCode st2 b
      | .error e => .error e := by
  induction a generalizing st with
  | nil => simp [execCode]
  | cons i rest ih =>
    simp only [List.cons_append, execCode]
    cases execInstr st i with
    | ok st2 => simp [ih]
    | error e => simp

/-- A run of print statements succeeds and appends exactly the printed chunks
to the capture buffer. -/
theorem execCode_prints (chunks : List (List Char)) (st : ExecState) :
    execCode st (chunks.map Instr.printLit) = .ok { st with out := st.out ++ chunks.flatten } := by
  induction chunks generalizing st with
  | nil => simp [execCode]
  | cons ch rest ih =>
    simp only [List.map_cons, execCode, execInstr]
    rw [ih]
    simp [List.append_assoc]

/-- C1: any error raised while `run_local_code` executes the code is caught at
the sandbox boundary and never propagated: the call still returns normally,
with the distinct no-result signal `none`, which differs from every successful
outcome — in particular from `some` of the empty mapping. -/
theorem run_local_code_catches_errors (code : Code) (vars : Bindings) (msg : String) (st : ExecState)
    (h : execCode { globalsNS := [], localsNS := vars, out := [] } code = .error (msg, st)) :
    (run_local_code code vars).result = none ∧
      ∀ b : Bindings, (run_local_code code vars).result ≠ some b := by
  unfold run_local_code
  rw [h]
  exact ⟨rfl, fun b hb => Option.noConfusion hb⟩

theorem run_local_code_catches_errors_witness :
    (run_local_code [Instr.raiseErr "ZeroDivisionError: division by zero"] []).result = none ∧
      ∀ b : Bindings,
        (run_local_code [Instr.raiseErr "ZeroDivisionError: division by zero"] []).result ≠ some b :=
  run_local_code_catches_errors [Instr.raiseErr "ZeroDivisionError: division by zero"] []
    "ZeroDivisionError: division by zero" { globalsNS := [], localsNS := [], out := [] } rfl

/-- C5: executing a no-op code string succeeds, hands back the bindings dict
with every entry unchanged, and the captured-output buffer is empty. -/
theorem run_local_code_noop (vars : Bindings) :
    run_local_code [] vars = { result := some vars, displayedOutput := [], errorMsg := none } := rfl

/-- C6: code that writes some chunks of text to standard output and then
raises an error produces a failure outcome (`none` result, error summary
shown) whose captured partial output is exactly the text written before the
error point. -/
theorem run_local_code_partial_output (chunks : List (List Char)) (msg : String) (vars : Bindings) :
    run_local_code (chunks.map Instr.printLit ++ [Instr.raiseErr msg]) vars =
      { result := none, displayedOutput := chunks.flatten, errorMsg := some msg } := by
  unfold run_local_code
  rw [execCode_append, execCode_prints]
  simp [execCode, execInstr]

/-- The call site of `run_local_code` seen from `main`: the caller holds its
own in-scope names (`df`, `query`, `python_code`, ...), but passes only the
code string and the bindings dict; `exec(code, {}, local_vars)` is invoked
with a fresh empty globals dict, so the caller's scope is neither consulted
nor written by the executed code. -/
def run_local_code_in_caller (code : Code) (local_vars : Bindings)
    (callerScope : Bindings) : RunResult × Bindings :=
  (run_local_code code local_vars, callerScope)

example :
    run_local_code [Instr.printVar "len"] [] =
      { result := some [], displayedOutput := "<built-in function len>\n".toList,
        errorMsg := none } := by decide

/-- C9: the supplied mapping is the executed code's only variable namespace.
The outcome is identical whatever the caller's other in-scope names are, and
the caller's scope is left untouched.  A name absent from the mapping resolves
only against the fixed language builtins that CPython injects into the empty
globals dict — never against the caller's scope — and a name absent from both
is a NameError inside the sandbox. -/
theorem exec_namespace_isolation (code : Code) (vars : Bindings) (c1 c2 : Bindings) :
    (run_local_code_in_caller code vars c1).1 = (run_local_code_in_caller code vars c2).1 ∧
      (run_local_code_in_caller code vars c1).2 = c1 ∧
      ∀ x : String, lookupVar vars x = none → lookupVar builtinsNS x = none →
        run_local_code [Instr.printVar x] vars =
          { result := none, displayedOutput := [],
            errorMsg := some ("NameError: name " ++ x ++ " is not defined") } := by
  refine ⟨rfl, rfl, fun x hx hb => ?_⟩
  have hnil : lookupVar [] x = none := rfl
  unfold run_local_code
  simp [execCode, execInstr, readName, hx, hb, hnil]

theorem exec_namespace_isolation_witness :
    (run_local_code_in_caller [Instr.printVar "query"] [("df", Value.dataFrame 0 false)]
        [("query", Value.strV "secret"), ("df", Value.dataFrame 0 false)]).1 =
      (run_local_code_in_caller [Instr.printVar "query"] [("df", Value.dataFrame 0 false)] []).1 ∧
      run_local_code [Instr.printVar "query"] [("df", Value.dataFrame 0 false)] =
        { result := none, displayedOutput := [],
          errorMsg := some ("NameError: name " ++ "query" ++ " is not defined") } :=
  ⟨(exec_namespace_isolation [Instr.printVar "query"] [("df", Value.dataFrame 0 false)]
      [("query", Value.strV "secret"), ("df", Value.dataFrame 0 false)] []).1,
    (exec_namespace_isolation [Instr.printVar "query"] [("df", Value.dataFrame 0 false)]
      [] []).2.2 "query" (by decide) (by decide)⟩

/-! Post-execution section of `main`: the bindings dict handed to the sandbox
and the three rendering passes with their exact exception-handling layout. -/

/-- The dict built in `main` right before `run_local_code`: the pandas handle,
the two plotting handles and the loaded dataset under the reserved name. -/
def initialBindings (df : Value) : Bindings :=
  [("pd", Value.lib "pandas"), ("plt", Value.lib "matplotlib.pyplot"),
   ("sns", Value.lib "seaborn"), ("px", Value.lib "plotly.express"),
   ("df", df)]

/-- A matplotlib figure in the global registry (`plt.get_fignums`), with a
flag recording whether `st.pyplot` on it raises. -/
structure Fig where
  figId : Nat
  renderRaises : Bool
deriving DecidableEq

/-- One element drawn on the page by the rendering section. -/
inductive DisplayItem where
  | pyplotFig (id : Nat)
  | plotlyChart (id : Nat)
  | tableLabel (label : String)
  | tableData (label : String)
  | successBanner
deriving DecidableEq

/-- `hasattr(v, 'to_html')`: pandas DataFrames and plotly figures expose
`to_html`; Series and the other values do not. -/
def hasToHtml : Value → Bool
  | .dataFrame _ _ => true
  | .plotlyFig _ _ => true
  | _ => false

/-- `isinstance(val, (pd.DataFrame, pd.Series))`. -/
def isTabular : Value → Bool
  | .dataFrame _ _ => true
  | .series _ _ => true
  | _ => false

/-- `st.plotly_chart(v)` succeeds exactly on a plotly figure whose rendering
does not raise; on any other value it raises. -/
def plotlyChartOk : Value → Bool
  | .plotlyFig _ r => !r
  | _ => false

def chartId : Value → Nat
  | .plotlyFig i _ => i
  | _ => 0

/-- Whether `st.dataframe`/`st.pyplot`-style display of a tabular value raises. -/
def dataframeRaises : Value → Bool
  | .dataFrame _ r => r
  | .series _ r => r
  | _ => false

/-- Body of the static-figure loop (`for fig_num in plt.get_fignums(): st.pyplot(fig)`).
A raising figure throws out of the loop: nothing after it in this pass is
displayed (second component: an exception escaped the loop). -/
def renderFigsLoop : List Fig → List DisplayItem × Bool
  | [] => ([], false)
  | f :: rest =>
    if f.renderRaises then ([], true)
    else (DisplayItem.pyplotFig f.figId :: (renderFigsLoop rest).1, (renderFigsLoop rest).2)

/-- First pass, lines 145-152: one `try/except Exception: pass` wrapped around
the whole loop, so the escaped exception is swallowed here and already-drawn
figures stay on the page. -/
def renderFigurePass (figs : List Fig) : List DisplayItem :=
  (renderFigsLoop figs).1

/-- Second pass, lines 154-159: `try`/`except: continue` inside the loop, so a
raising value is skipped and the iteration proceeds with the next value. -/
def renderChartPass : Bindings → List DisplayItem
  | [] => []
  | (_, v) :: rest =>
    if hasToHtml v then
      if plotlyChartOk v then DisplayItem.plotlyChart (chartId v) :: renderChartPass rest
      else renderChartPass rest
    else renderChartPass rest

/-- Third pass, lines 161-164: no try/except at all; `st.write` of the label
has already run when `st.dataframe` raises, and the exception escapes the
loop (second component), skipping the rest of the pass. -/
def renderTablePass : Bindings → List DisplayItem × Bool
  | [] => ([], false)
  | (name, v) :: rest =>
    if isTabular v && name != "df" then
      if dataframeRaises v then ([DisplayItem.tableLabel name], true)
      else (DisplayItem.tableLabel name :: DisplayItem.tableData name :: (renderTablePass rest).1,
        (renderTablePass rest).2)
    else renderTablePass rest

/-- Lines 145-166 of `main`: the three passes in order, then the success
banner, which is reached only when no exception escaped the tabular pass. -/
def renderResults (figs : List Fig) (result_vars : Bindings) : List DisplayItem × Bool :=
  (renderFigurePass figs ++ renderChartPass result_vars ++ (renderTablePass result_vars).1 ++
      (if (renderTablePass result_vars).2 then [] else [DisplayItem.successBanner]),
    (renderTablePass result_vars).2)

/-- C7 counterexample: with two figures in the first pass, the first raising
at `st.pyplot` and the second perfectly healthy, the healthy second figure is
not displayed — the single try/except around the whole static-figure loop
aborts the remainder of that pass, refuting per-value swallowing. -/
theorem render_per_value_swallow_counterexample :
    renderFigurePass [⟨1, true⟩, ⟨2, false⟩] = [] ∧
      DisplayItem.pyplotFig 2 ∉ (renderResults [⟨1, true⟩, ⟨2, false⟩] []).1 := by decide

/-- C7 (amended): the interactive-chart pass swallows failures per value, so
every healthy chart is displayed; the static-figure pass swallows its failure
but aborts the remainder of that pass (later passes still run, being appended
regardless); and in the tabular pass a failure is not caught: it ends that
pass and suppresses the success banner. -/
theorem render_error_handling_amended (figs : List Fig) (vars : Bindings) :
    renderFigurePass figs =
      (figs.takeWhile (fun f => !f.renderRaises)).map (fun f => DisplayItem.pyplotFig f.figId) ∧
    renderChartPass vars =
      (vars.filter (fun p => plotlyChartOk p.2)).map (fun p => DisplayItem.plotlyChart (chartId p.2)) ∧
    (renderResults figs vars).1 =
      renderFigurePass figs ++ renderChartPass vars ++ (renderTablePass vars).1 ++
        (if (renderTablePass vars).2 then [] else [DisplayItem.successBanner]) ∧
    (renderTablePass vars).2 =
      vars.any (fun p => isTabular p.2 && p.1 != "df" && dataframeRaises p.2) := by
  refine ⟨?_, ?_, rfl, ?_⟩
  · induction figs with
    | nil => rfl
    | cons f rest ih =>
      by_cases hr : f.renderRaises = true
      · simp [renderFigurePass, renderFigsLoop, hr, List.takeWhile_cons]
      · have hr2 : f.renderRaises = false := bool_eq_false_of_not _ hr
        simp [renderFigurePass, renderFigsLoop, hr2, List.takeWhile_cons] at ih ⊢
        exact ih
  · induction vars with
    | nil => rfl
    | cons p rest ih =>
      obtain ⟨name, v⟩ := p
      cases v with
      | plotlyFig i r =>
        cases r with
        | false => simp [renderChartPass, hasToHtml, plotlyChartOk, chartId, List.filter, ih]
        | true => simp [renderChartPass, hasToHtml, plotlyChartOk, List.filter, ih]
      | dataFrame i r => simp [renderChartPass, hasToHtml, plotlyChartOk, List.filter, ih]
      | series i r => simp [renderChartPass, hasToHtml, plotlyChartOk, List.filter, ih]
      | lib m => simp [renderChartPass, hasToHtml, plotlyChartOk, List.filter, ih]
      | builtinFn f => simp [renderChartPass, hasToHtml, plotlyChartOk, List.filter, ih]
      | intV n => simp [renderChartPass, hasToHtml, plotlyChartOk, List.filter, ih]
      | strV s => simp [renderChartPass, hasToHtml, plotlyChartOk, List.filter, ih]
  · induction vars with
    | nil => rfl
    | cons p rest ih =>
      obtain ⟨name, v⟩ := p
      by_cases hc : (isTabular v && name != "df") = true
      · by_cases hr : dataframeRaises v = true
        · simp [renderTablePass, hc, hr, List.any_cons]
        · have hr2 : dataframeRaises v = false := bool_eq_false_of_not _ hr
          simp [renderTablePass, hc, hr2, List.any_cons, ih]
      · have hc2 : (isTabular v && name != "df") = false := bool_eq_false_of_not _ hc
        simp only [renderTablePass, hc2, Bool.false_eq_true, if_false, List.any_cons]
        simp [ih]

/-- The tabular pass never displays an entry under the reserved name. -/
theorem renderTablePass_no_df (vars : Bindings) :
    DisplayItem.tableLabel "df" ∉ (renderTablePass vars).1 ∧
      DisplayItem.tableData "df" ∉ (renderTablePass vars).1 := by
  induction vars with
  | nil => simp [renderTablePass]
  | cons p rest ih =>
    obtain ⟨name, v⟩ := p
    by_cases hc : (isTabular v && name != "df") = true
    · have hne : ¬ "df" = name := by
        intro he
        subst he
        simp at hc
      by_cases hr : dataframeRaises v = true
      · simp [renderTablePass, hc, hr, hne]
      · have hr2 : dataframeRaises v = false := bool_eq_false_of_not _ hr
        simp [renderTablePass, hc, hr2, hne, ih.1, ih.2]
    · have hc2 : (isTabular v && name != "df") = false := bool_eq_false_of_not _ hc
      simpa [renderTablePass, hc2] using ih

/-- C8: right before execution the bindings dict holds exactly the five
pre-bound names — the pandas handle, the two plotting handles and the Dataset
under the reserved name `df` — and the tabular rendering pass never displays
the reserved `df` entry, whatever the bindings contain. -/
theorem execution_namespace_contract (df : Value) :
    (initialBindings df).map Prod.fst = ["pd", "plt", "sns", "px", "df"] ∧
      lookupVar (initialBindings df) "df" = some df ∧
      ∀ vars : Bindings, DisplayItem.tableLabel "df" ∉ (renderTablePass vars).1 ∧
        DisplayItem.tableData "df" ∉ (renderTablePass vars).1 :=
  ⟨rfl, by simp [initialBindings, lookupVar], fun vars => renderTablePass_no_df vars⟩
